import Mathlib

/-!
Verification of the Shopify product-sync script (`sync.py`).

The script is an ETL loop: `get_all_products` paginates the remote catalog,
`transform_product_data` flattens one raw product dict into the persisted-row
shape, and `sync_products_to_db` upserts each row into a SQLite table keyed by
product id, committing once at the end.  `trigger_sync` wires the steps
together behind a catch-all error handler.

The embedding below models Python dict values with optional fields as an
explicit scalar type with Python truthiness, models `datetime.utcnow()` as an
abstract clock of call indices, models the SQLite connection as a committed
snapshot plus an in-transaction view, and models the remote server as a
function from page numbers to batches.
-/

/-- An exact scaled decimal, value `mant / 10 ^ frac10`, modelling the Python
float values the sync script handles.  The script performs no arithmetic on
floats — it only parses decimal price strings and stores the result — so
exact decimals are a faithful abstraction of that use. -/
structure PyDec where
  mant : Int
  frac10 : Nat
deriving DecidableEq, Repr

/-- A Python scalar value as it can appear in a raw product dict: `None`
(also the result of `dict.get` on a missing key), a string, an int, or a
float. -/
inductive PyScalar where
  | pnone
  | pstr (s : String)
  | pint (n : Int)
  | pfloat (d : PyDec)
deriving DecidableEq, Repr

/-- Python truthiness for the scalar values above: `None`, `0`, `0.0` and the
empty string are falsy, everything else is truthy.  In particular a nonempty
string is truthy whatever its characters, including the one-character string
holding the digit 0. -/
def pyTruthy : PyScalar → Bool
  | .pnone => false
  | .pstr s => s ≠ ""
  | .pint n => n ≠ 0
  | .pfloat d => d.mant ≠ 0

/-- Digit list to natural number, for decimal literals (guarded by an
all-digits check at the call site). -/
def digitsToNat (l : List Char) : Nat :=
  l.foldl (fun n c => n * 10 + (c.toNat - 48)) 0

/-- Models Python `float(s)` on plain decimal string literals, the shapes the
sync script actually receives for prices ("19.99", "0", "-1.5", "1.", ".5").
Returns `none` when the string does not parse (Python raises `ValueError`);
exotic accepted forms such as exponents, infinities, or surrounding
whitespace are out of scope and also map to `none`. -/
def parseDecimal (s : String) : Option PyDec :=
  let (neg, body) : Bool × List Char :=
    match s.data with
    | '-' :: rest => (true, rest)
    | '+' :: rest => (false, rest)
    | l => (false, l)
  let sign : Int := if neg then -1 else 1
  let (ip, rest) := body.span (fun c => c ≠ '.')
  match rest with
  | [] =>
    if ip ≠ [] ∧ ip.all Char.isDigit then
      some ⟨sign * digitsToNat ip, 0⟩
    else none
  | _ :: fp =>
    if (ip ++ fp) ≠ [] ∧ ip.all Char.isDigit ∧ fp.all Char.isDigit then
      some ⟨sign * (digitsToNat ip * 10 ^ fp.length + digitsToNat fp), fp.length⟩
    else none

/-- Models Python `float(x)` on a scalar: parses strings, converts numbers,
fails (`none` = raises `TypeError`/`ValueError`) on `None` or an unparsable
string. -/
def pyFloat : PyScalar → Option PyDec
  | .pnone => none
  | .pstr s => parseDecimal s
  | .pint n => some ⟨n, 0⟩
  | .pfloat d => some d

/-- Models the expression `float(variant.get(k, 0)) if variant.get(k) else None`
from `transform_product_data` (sync.py lines 114-115).  Outer `none` means the
expression raises (unparsable truthy string); `some none` means the Python
value `None` (falsy source value); `some (some d)` is the parsed float. -/
def priceField (x : PyScalar) : Option (Option PyDec) :=
  if pyTruthy x then (pyFloat x).map some else some none

/-- One entry of a raw product's `variants` list, restricted to the keys the
sync path reads.  A missing key is `pnone` (what `dict.get` returns). -/
structure RawVariant where
  price : PyScalar
  compare_at_price : PyScalar
  sku : PyScalar
  inventory_quantity : PyScalar
deriving DecidableEq, Repr

/-- The empty dict `{}` used by `transform_product_data` when the product has
no variants: every `get` on it returns `None`. -/
def emptyVariant : RawVariant :=
  { price := .pnone, compare_at_price := .pnone, sku := .pnone,
    inventory_quantity := .pnone }

/-- A raw Shopify product dict, restricted to the keys `transform_product_data`
reads.  A missing key is `pnone`; a missing or `None` `variants` key behaves
exactly like the empty list (both are falsy), so absence is modelled as `[]`. -/
structure RawProduct where
  id : PyScalar
  title : PyScalar
  body_html : PyScalar
  vendor : PyScalar
  product_type : PyScalar
  created_at : PyScalar
  updated_at : PyScalar
  published_at : PyScalar
  status : PyScalar
  variants : List RawVariant
deriving DecidableEq, Repr

/-- The transformed row built by `transform_product_data`, matching the
`products` table schema.  `last_synced_at` is the abstract instant returned
by the `datetime.utcnow()` call made while building the dict. -/
structure Row where
  id : PyScalar
  title : PyScalar
  description : PyScalar
  vendor : PyScalar
  product_type : PyScalar
  created_at : PyScalar
  updated_at : PyScalar
  published_at : PyScalar
  status : PyScalar
  price : Option PyDec
  compare_at_price : Option PyDec
  sku : PyScalar
  inventory_quantity : PyScalar
  last_synced_at : Nat
deriving DecidableEq, Repr

/-- The variant `transform_product_data` reads prices from:
`product.get('variants', [{}])[0] if product.get('variants') else {}`
(sync.py line 102).  The first variant is used when the variants list is
truthy (nonempty), else the empty dict. -/
def firstVariant (product : RawProduct) : RawVariant :=
  match product.variants with
  | v :: _ => v
  | [] => emptyVariant

/-- `transform_product_data` (sync.py lines 90-125).  `now` is the instant
`datetime.utcnow()` returns during this call.  The result is `none` exactly
when the Python function raises, which can only happen in the two
`float(...)` conversions; these are evaluated before `utcnow()`, so a
failing call consumes no clock tick. -/
def transform_product_data (now : Nat) (product : RawProduct) : Option Row :=
  match priceField (firstVariant product).price,
        priceField (firstVariant product).compare_at_price with
  | some price, some cap =>
    some { id := product.id
           title := product.title
           description := product.body_html
           vendor := product.vendor
           product_type := product.product_type
           created_at := product.created_at
           updated_at := product.updated_at
           published_at := product.published_at
           status := product.status
           price := price
           compare_at_price := cap
           sku := (firstVariant product).sku
           inventory_quantity := (firstVariant product).inventory_quantity
           last_synced_at := now }
  | _, _ => none

/-! ## Rows modulo the timestamp column -/

/-- A persisted row without its `last_synced_at` column: the part of the
store the idempotence contract speaks about. -/
structure RowCore where
  id : PyScalar
  title : PyScalar
  description : PyScalar
  vendor : PyScalar
  product_type : PyScalar
  created_at : PyScalar
  updated_at : PyScalar
  published_at : PyScalar
  status : PyScalar
  price : Option PyDec
  compare_at_price : Option PyDec
  sku : PyScalar
  inventory_quantity : PyScalar
deriving DecidableEq, Repr

/-- Drop the `last_synced_at` column of a row. -/
def rowCore (r : Row) : RowCore :=
  { id := r.id, title := r.title, description := r.description,
    vendor := r.vendor, product_type := r.product_type,
    created_at := r.created_at, updated_at := r.updated_at,
    published_at := r.published_at, status := r.status, price := r.price,
    compare_at_price := r.compare_at_price, sku := r.sku,
    inventory_quantity := r.inventory_quantity }

/-! ## The store: `INSERT OR REPLACE` keyed by the primary key

The `products` table has `id INTEGER PRIMARY KEY`, so it holds at most one
row per id and `INSERT OR REPLACE` replaces the whole row for an existing id.
We model a table as a list of rows and the write as a keyed upsert; the
development is generic in the key projection so the same lemmas apply to rows
with and without the timestamp column. -/

section Assoc

variable {κ ρ : Type} [DecidableEq κ]

/-- `INSERT OR REPLACE` keyed by the primary key: replace the row carrying
the new row's key in place (the primary key equals the SQLite rowid here, so
a replaced row keeps its position), or append the row when its key is
absent. -/
def upsert (key : ρ → κ) : List ρ → ρ → List ρ
  | [], r => [r]
  | x :: xs, r => if key x = key r then r :: xs else x :: upsert key xs r

/-- The keys present in a table, in row order. -/
def keysOf (key : ρ → κ) (db : List ρ) : List κ := db.map key

/-- The first row carrying a key, if any. -/
def lookupRow (key : ρ → κ) (db : List ρ) (k : κ) : Option ρ :=
  db.find? (fun x => key x = k)

/-- The table invariant granted by the primary key: no two rows share a key. -/
def NodupKeys (key : ρ → κ) (db : List ρ) : Prop := (keysOf key db).Nodup

/-- Upsert each row of a list in order. -/
def upsertList (key : ρ → κ) (db : List ρ) (rs : List ρ) : List ρ :=
  rs.foldl (upsert key) db

/-- The last row of a list carrying a given key, if any (the value an upsert
sequence leaves behind for that key). -/
def lastMatch (key : ρ → κ) (k : κ) : List ρ → Option ρ
  | [] => none
  | r :: tl => (lastMatch key k tl).orElse (fun _ => if key r = k then some r else none)

end Assoc

/-! ## `sync_products_to_db` -/

/-- A SQLite connection: the durable committed store plus the current
in-transaction view that uncommitted `INSERT OR REPLACE` statements act on.
`commit` publishes the view; `rollback` discards it. -/
structure Conn where
  committed : List Row
  current : List Row
deriving DecidableEq, Repr

/-- The per-record loop of `sync_products_to_db` (sync.py lines 135-168):
transform each product, `INSERT OR REPLACE` the row keyed by its id, and
count one success per written row; a record whose transform raises is
counted as an error and the loop continues with the next record.  `clock c`
is the instant the `c`-th `datetime.utcnow()` call of the run returns; a
failed transform raises before reaching `utcnow()` and consumes no tick.
Returns (table view, success_count, error_count, next clock index). -/
def syncLoop (clock : Nat → Nat) :
    List RawProduct → List Row → Nat → Nat → Nat → List Row × Nat × Nat × Nat
  | [], db, s, f, c => (db, s, f, c)
  | p :: rest, db, s, f, c =>
    match transform_product_data (clock c) p with
    | some row => syncLoop clock rest (upsert Row.id db row) (s + 1) f (c + 1)
    | none => syncLoop clock rest db s (f + 1) c

/-- Outcome of one `sync_products_to_db` call: the connection state after the
call and either `.ok (success_count, error_count)` or the propagated commit
error. -/
structure SyncOutcome where
  conn : Conn
  result : Except String (Nat × Nat)
deriving Repr

/-- `sync_products_to_db` (sync.py lines 127-176).  The function first
evaluates `current_time = datetime.utcnow()` (line 130) — consuming clock
index `c0` — and never uses it; each row instead carries the `utcnow()` of
its own transform call.  After the loop, `conn.commit()` either publishes the
batch (modelled by `commitErr = none`) or raises, in which case the `except`
block rolls the transaction back — discarding every pending write, so the
store is as before the call — and re-raises the error. -/
def sync_products_to_db (clock : Nat → Nat) (commitErr : Option String)
    (products : List RawProduct) (conn : Conn) (c0 : Nat) : SyncOutcome :=
  let (db, s, f, _) := syncLoop clock products conn.current 0 0 (c0 + 1)
  match commitErr with
  | none => ⟨⟨db, db⟩, .ok (s, f)⟩
  | some e => ⟨⟨conn.committed, conn.committed⟩, .error e⟩

/-- The rows (modulo timestamp) the batch writes, in write order: one per
record whose transform succeeds. -/
def coreWrites (recs : List RawProduct) : List RowCore :=
  recs.filterMap (fun p => (transform_product_data 0 p).map rowCore)

/-! ## `get_all_products` -/

/-- The pagination loop of `get_all_products` (sync.py lines 36-56) over a
server that always answers: request page `page`, stop with an empty result
list when the batch is empty, else append the batch and move to the next
page.  The Python loop has no bound, so we thread explicit fuel; `none`
means the loop is still running after `fuel` requests.  On termination the
result carries the accumulated products and the number of page requests
issued (the final empty-page request included). -/
def fetchLoop {α : Type} (server : Nat → List α) : Nat → Nat → Option (List α × Nat)
  | 0, _ => none
  | fuel + 1, page =>
    let batch := server page
    if batch.isEmpty then some ([], 1)
    else
      match fetchLoop server fuel (page + 1) with
      | none => none
      | some (rest, reqs) => some (batch ++ rest, reqs + 1)

/-- `get_all_products`: the pagination loop started at page 1. -/
def get_all_products {α : Type} (server : Nat → List α) (fuel : Nat) :
    Option (List α × Nat) :=
  fetchLoop server fuel 1

/-- The pagination loop over a fallible server (`shopify.Product.find` can
raise).  An exception aborts the fetch at once: the accumulated products are
discarded, no retry is made, and the error propagates to the caller
(sync.py lines 54-56 only log and re-raise). -/
def fetchLoopExc {α : Type} (server : Nat → Except String (List α)) :
    Nat → Nat → Option (Except String (List α))
  | 0, _ => none
  | fuel + 1, page =>
    match server page with
    | .error e => some (.error e)
    | .ok batch =>
      if batch.isEmpty then some (.ok [])
      else
        match fetchLoopExc server fuel (page + 1) with
        | none => none
        | some (.error e) => some (.error e)
        | some (.ok rest) => some (.ok (batch ++ rest))

/-- `get_all_products` over a fallible server, started at page 1. -/
def getAllProductsExc {α : Type} (server : Nat → Except String (List α))
    (fuel : Nat) : Option (Except String (List α)) :=
  fetchLoopExc server fuel 1

/-! ## `trigger_sync` -/

/-- Python truthiness of an environment variable as `os.getenv` returns it:
absent (`None`) or empty is falsy. -/
def envTruthy : Option String → Bool
  | none => false
  | some s => s ≠ ""

/-- The external world one `trigger_sync` run observes: the two required
environment variables, whether `init_shopify` and `init_db` raise, the
paginated (fallible) catalog server, whether the final `conn.commit()`
raises, and the `utcnow` clock. -/
structure TriggerEnv where
  shop_url : Option String
  access_token : Option String
  initShopifyErr : Option String
  initDbErr : Option String
  server : Nat → Except String (List RawProduct)
  commitErr : Option String
  clock : Nat → Nat

/-- What one `trigger_sync` run produces: the returned dict (`status` and
`message`), whether a database connection was opened, whether it was closed,
and the committed store left behind. -/
structure TriggerOutcome where
  status : String
  message : String
  connOpened : Bool
  connClosed : Bool
  db : List Row
deriving Repr

/-- `trigger_sync` (sync.py lines 225-263) started against an existing
committed store `db0`.  Every failure path — missing credentials,
`init_shopify` raising, `init_db` raising, a fetch error, a commit error —
is caught by the outer `except`, which returns a dict with status "error"
and the message prefixed by "Sync process failed: "; the success path
returns status "success".  The `finally` block closes the connection
whenever `init_db` returned one.  `fuel` bounds the inner pagination loop;
`none` means the fetch is still looping after `fuel` page requests (the
loop has no bound of its own). -/
def trigger_sync (env : TriggerEnv) (db0 : List Row) (fuel : Nat) :
    Option TriggerOutcome :=
  if !(envTruthy env.shop_url && envTruthy env.access_token) then
    some ⟨"error",
      "Sync process failed: Missing required environment variables: SHOPIFY_SHOP_URL, SHOPIFY_ACCESS_TOKEN",
      false, false, db0⟩
  else
    match env.initShopifyErr with
    | some e => some ⟨"error", "Sync process failed: " ++ e, false, false, db0⟩
    | none =>
      match env.initDbErr with
      | some e => some ⟨"error", "Sync process failed: " ++ e, false, false, db0⟩
      | none =>
        match getAllProductsExc env.server fuel with
        | none => none
        | some (.error e) =>
          some ⟨"error", "Sync process failed: " ++ e, true, true, db0⟩
        | some (.ok products) =>
          match (sync_products_to_db env.clock env.commitErr products ⟨db0, db0⟩ 0).result with
          | .error e =>
            some ⟨"error", "Sync process failed: " ++ e, true, true,
              (sync_products_to_db env.clock env.commitErr products ⟨db0, db0⟩ 0).conn.committed⟩
          | .ok _ =>
            some ⟨"success",
              "Successfully synced " ++ toString products.length ++ " products to database",
              true, true,
              (sync_products_to_db env.clock env.commitErr products ⟨db0, db0⟩ 0).conn.committed⟩

/-! ## Concrete fixtures -/

/-- The sample variant of the repository's test suite (test_sync.py). -/
def sampleVariant : RawVariant :=
  { price := .pstr "19.99", compare_at_price := .pstr "24.99",
    sku := .pstr "TEST-SKU-123", inventory_quantity := .pint 100 }

/-- The sample product of the repository's test suite, with a chosen id. -/
def sampleProduct (n : Int) : RawProduct :=
  { id := .pint n, title := .pstr "Test Product",
    body_html := .pstr "<p>Test Description</p>", vendor := .pstr "Test Vendor",
    product_type := .pstr "Test Type", created_at := .pstr "2024-03-14T10:00:00Z",
    updated_at := .pstr "2024-03-14T11:00:00Z",
    published_at := .pstr "2024-03-14T12:00:00Z", status := .pstr "active",
    variants := [sampleVariant] }

/-- A product whose transform raises: `float("not-a-number")` is a
`ValueError`. -/
def badProduct : RawProduct :=
  { sampleProduct 2 with
    variants := [{ sampleVariant with price := .pstr "not-a-number" }] }

/-- A product whose first variant's price is the string "0". -/
def zeroStrPriceProduct : RawProduct :=
  { sampleProduct 9 with
    variants := [{ sampleVariant with price := .pstr "0", compare_at_price := .pnone }] }

/-- A product whose first variant's price is the integer 0 (falsy). -/
def intZeroPriceProduct : RawProduct :=
  { sampleProduct 9 with
    variants := [{ sampleVariant with price := .pint 0, compare_at_price := .pnone }] }

/-- A product with no variants and every optional field absent. -/
def sparseProduct : RawProduct :=
  { id := .pint 123456789, title := .pstr "Test Product", body_html := .pnone,
    vendor := .pnone, product_type := .pnone, created_at := .pnone,
    updated_at := .pnone, published_at := .pnone, status := .pnone,
    variants := [] }

/-- A two-page catalog: page 1 holds [10], page 2 holds [20, 30], page 3 is
empty. -/
def twoPageServer : Nat → List Nat :=
  fun page => if page = 1 then [10] else if page = 2 then [20, 30] else []

/-- A server whose first page is fine and whose second request raises. -/
def failingServer : Nat → Except String (List Nat) :=
  fun page => if page = 1 then .ok [5] else .error "network down"

/-- A trigger environment where everything succeeds and the catalog is
empty. -/
def okTriggerEnv : TriggerEnv :=
  { shop_url := some "test-shop.myshopify.com", access_token := some "test-token",
    initShopifyErr := none, initDbErr := none, server := fun _ => .ok [],
    commitErr := none, clock := fun n => n }

/-- The outcome `trigger_sync` produces in `okTriggerEnv` on an empty store. -/
def okTriggerOutcome : TriggerOutcome :=
  { status := "success", message := "Successfully synced 0 products to database",
    connOpened := true, connClosed := true, db := [] }

/-- The sample product with id 1, renamed and repriced: a modified record
under the same product id. -/
def modifiedProduct : RawProduct :=
  { sampleProduct 1 with
    title := .pstr "Renamed",
    variants := [{ sampleVariant with price := .pstr "9.99" }] }

/-! ## Store lemmas -/

section AssocLemmas

variable {κ ρ : Type} (key : ρ → κ)

theorem keysOf_nil : keysOf key ([] : List ρ) = [] := rfl

theorem keysOf_cons (x : ρ) (xs : List ρ) :
    keysOf key (x :: xs) = key x :: keysOf key xs := rfl

variable [DecidableEq κ]

theorem keysOf_upsert (db : List ρ) (r : ρ) :
    keysOf key (upsert key db r) =
      if key r ∈ keysOf key db then keysOf key db else keysOf key db ++ [key r] := by
  induction db with
  | nil => simp [upsert, keysOf]
  | cons x xs ih =>
    by_cases h : key x = key r
    · simp [upsert, h, keysOf_cons]
    · have hne : ¬ key r = key x := fun hc => h hc.symm
      simp [upsert, h, keysOf_cons, ih, hne]
      by_cases hm : key r ∈ keysOf key xs <;> simp [hm]

theorem mem_keysOf_upsert (db : List ρ) (r : ρ) (k : κ) :
    k ∈ keysOf key (upsert key db r) ↔ k ∈ keysOf key db ∨ k = key r := by
  rw [keysOf_upsert]
  by_cases h : key r ∈ keysOf key db
  · simp only [if_pos h]
    constructor
    · exact fun hk => Or.inl hk
    · rintro (hk | rfl)
      · exact hk
      · exact h
  · simp [if_neg h]

theorem nodupKeys_upsert (db : List ρ) (r : ρ) (h : NodupKeys key db) :
    NodupKeys key (upsert key db r) := by
  unfold NodupKeys at h ⊢
  rw [keysOf_upsert]
  by_cases hm : key r ∈ keysOf key db
  · simpa [hm] using h
  · simp only [if_neg hm]
    simpa [List.nodup_append] using ⟨h, hm⟩

theorem lookupRow_upsert (db : List ρ) (r : ρ) (k : κ) :
    lookupRow key (upsert key db r) k =
      if key r = k then some r else lookupRow key db k := by
  induction db with
  | nil => by_cases h : key r = k <;> simp [upsert, lookupRow, List.find?, h]
  | cons x xs ih =>
    unfold lookupRow at ih ⊢
    by_cases hx : key x = key r
    · rw [upsert, if_pos hx]
      by_cases hk : key r = k
      · simp [List.find?, hk]
      · have hxk : ¬ key x = k := fun hc => hk (hx ▸ hc)
        simp [List.find?, hk, hxk]
    · rw [upsert, if_neg hx]
      by_cases hxk : key x = k
      · have hrk : ¬ key r = k := fun hc => hx (by rw [hxk, hc])
        simp [List.find?, hxk, hrk]
      · simp [List.find?, hxk, ih]

theorem lookupRow_eq_none (db : List ρ) (k : κ) (h : k ∉ keysOf key db) :
    lookupRow key db k = none := by
  unfold lookupRow
  rw [List.find?_eq_none]
  intro x hx
  simp only [decide_eq_true_eq]
  intro hc
  exact h (hc ▸ List.mem_map_of_mem key hx)

theorem upsertList_nil (db : List ρ) : upsertList key db [] = db := rfl

theorem upsertList_cons (db : List ρ) (r : ρ) (rs : List ρ) :
    upsertList key db (r :: rs) = upsertList key (upsert key db r) rs := rfl

theorem mem_keysOf_upsertList (db : List ρ) (rs : List ρ) (k : κ) :
    k ∈ keysOf key (upsertList key db rs) ↔
      k ∈ keysOf key db ∨ k ∈ rs.map key := by
  induction rs generalizing db with
  | nil => simp [upsertList_nil]
  | cons r tl ih =>
    rw [upsertList_cons, ih, mem_keysOf_upsert]
    simp [or_assoc, or_comm, or_left_comm]

theorem keysOf_upsertList_of_subset (db : List ρ) (rs : List ρ)
    (h : ∀ r ∈ rs, key r ∈ keysOf key db) :
    keysOf key (upsertList key db rs) = keysOf key db := by
  induction rs generalizing db with
  | nil => simp [upsertList_nil]
  | cons r tl ih =>
    rw [upsertList_cons]
    have hks : keysOf key (upsert key db r) = keysOf key db := by
      rw [keysOf_upsert, if_pos (h r (List.mem_cons_self r tl))]
    rw [ih (upsert key db r) (fun r' hr' => hks ▸ h r' (List.mem_cons_of_mem r hr')), hks]

theorem nodupKeys_upsertList (db : List ρ) (rs : List ρ) (h : NodupKeys key db) :
    NodupKeys key (upsertList key db rs) := by
  induction rs generalizing db with
  | nil => simpa [upsertList_nil] using h
  | cons r tl ih => exact upsertList_cons key db r tl ▸ ih _ (nodupKeys_upsert key db r h)

theorem lookupRow_upsertList (db : List ρ) (rs : List ρ) (k : κ) :
    lookupRow key (upsertList key db rs) k =
      (lastMatch key k rs).orElse (fun _ => lookupRow key db k) := by
  induction rs generalizing db with
  | nil => simp [upsertList_nil, lastMatch]
  | cons r tl ih =>
    rw [upsertList_cons, ih, lastMatch]
    cases lastMatch key k tl with
    | some v => simp [Option.orElse]
    | none =>
      simp only [Option.orElse, Option.none_orElse]
      by_cases h : key r = k <;> simp [h, lookupRow_upsert]

theorem keysOf_ext : ∀ (A B : List ρ), NodupKeys key A →
    keysOf key A = keysOf key B →
    (∀ k, lookupRow key A k = lookupRow key B k) → A = B := by
  intro A
  induction A with
  | nil =>
    intro B _ hkeys _
    rcases B with _ | ⟨b, B'⟩
    · rfl
    · simp [keysOf] at hkeys
  | cons a A' ih =>
    intro B hA hkeys hlook
    rcases B with _ | ⟨b, B'⟩
    · simp [keysOf] at hkeys
    · rw [keysOf_cons, keysOf_cons] at hkeys
      have hkey : key a = key b := (List.cons.injEq _ _ _ _ ▸ hkeys).1
      have htl : keysOf key A' = keysOf key B' := (List.cons.injEq _ _ _ _ ▸ hkeys).2
      have hA' : NodupKeys key A' := (List.nodup_cons.mp hA).2
      have hnotmem : key a ∉ keysOf key A' := (List.nodup_cons.mp hA).1
      have hab : a = b := by
        have h1 := hlook (key a)
        unfold lookupRow at h1
        simp [List.find?, hkey.symm] at h1
        exact h1
      refine congrArg₂ (· :: ·) hab (ih B' hA' htl ?_)
      intro k
      by_cases hk : k = key a
      · subst hk
        rw [lookupRow_eq_none key A' _ hnotmem, lookupRow_eq_none key B' _ ?_]
        rw [← htl]
        exact hnotmem
      · have h1 := hlook k
        have hne : ¬ key a = k := fun hc => hk hc.symm
        have hne' : ¬ key b = k := fun hc => hk (hkey ▸ hc).symm
        unfold lookupRow at h1 ⊢
        simp [List.find?, hne, hne'] at h1 ⊢
        exact h1

theorem upsertList_idem (db : List ρ) (rs : List ρ) (h : NodupKeys key db) :
    upsertList key (upsertList key db rs) rs = upsertList key db rs := by
  have hE : NodupKeys key (upsertList key db rs) := nodupKeys_upsertList key db rs h
  apply keysOf_ext key _ _ (nodupKeys_upsertList key _ rs hE)
  · apply keysOf_upsertList_of_subset
    intro r hr
    rw [mem_keysOf_upsertList]
    exact Or.inr (List.mem_map_of_mem key hr)
  · intro k
    rw [lookupRow_upsertList, lookupRow_upsertList]
    cases lastMatch key k rs <;> simp [Option.orElse]

theorem countP_key_eq_one (db : List ρ) (k : κ) (h : NodupKeys key db)
    (hm : k ∈ keysOf key db) :
    db.countP (fun x => key x = k) = 1 := by
  induction db with
  | nil => simp [keysOf] at hm
  | cons x xs ih =>
    rw [keysOf_cons] at hm
    have hx : NodupKeys key xs := (List.nodup_cons.mp h).2
    have hnot : key x ∉ keysOf key xs := (List.nodup_cons.mp h).1
    rcases List.mem_cons.mp hm with hk | hk
    · subst hk
      rw [List.countP_cons]
      simp only [decide_eq_true_eq]
      have hz : xs.countP (fun y => key y = key x) = 0 := by
        rw [List.countP_eq_zero]
        intro y hy
        simp only [decide_eq_true_eq]
        intro hc
        exact hnot (hc ▸ List.mem_map_of_mem key hy)
      simp [hz]
    · rw [List.countP_cons]
      have hne : ¬ key x = k := by
        intro hc
        exact hnot (hc ▸ hk)
      simp [hne, ih hx hk]

theorem map_upsert {ρ' : Type} (keyB : ρ' → κ) (f : ρ → ρ')
    (hf : ∀ x, keyB (f x) = key x) (db : List ρ) (r : ρ) :
    (upsert key db r).map f = upsert keyB (db.map f) (f r) := by
  induction db with
  | nil => simp [upsert]
  | cons x xs ih =>
    by_cases h : key x = key r
    · simp [upsert, h, hf]
    · simp [upsert, h, hf, ih]

end AssocLemmas

theorem rowCore_id (r : Row) : (rowCore r).id = r.id := rfl

/-! ## Transform lemmas -/

/-- Whether a transform succeeds depends only on the record, not on the
instant the clock returns: the timestamp is attached after the fallible
`float(...)` conversions. -/
theorem transform_isSome_clock_indep (now : Nat) (p : RawProduct) :
    (transform_product_data now p).isSome = (transform_product_data 0 p).isSome := by
  unfold transform_product_data
  cases priceField (firstVariant p).price <;>
    cases priceField (firstVariant p).compare_at_price <;> rfl

/-- Every column of a transformed row except `last_synced_at` depends only on
the record, not on the clock. -/
theorem transform_core_clock_indep (now : Nat) (p : RawProduct) :
    (transform_product_data now p).map rowCore
      = (transform_product_data 0 p).map rowCore := by
  unfold transform_product_data
  cases priceField (firstVariant p).price <;>
    cases priceField (firstVariant p).compare_at_price <;> rfl

/-- A transformed row carries the raw product's id. -/
theorem transform_id (now : Nat) (p : RawProduct) (r : Row)
    (h : transform_product_data now p = some r) : r.id = p.id := by
  unfold transform_product_data at h
  cases h1 : priceField (firstVariant p).price with
  | none => rw [h1] at h; exact absurd h (by simp)
  | some a =>
    cases h2 : priceField (firstVariant p).compare_at_price with
    | none => rw [h1, h2] at h; exact absurd h (by simp)
    | some b =>
      rw [h1, h2] at h
      cases h
      rfl

/-- The timestamp a transformed row carries is exactly the instant of this
call's `utcnow()`. -/
theorem transform_last_synced (now : Nat) (p : RawProduct) (r : Row)
    (h : transform_product_data now p = some r) : r.last_synced_at = now := by
  unfold transform_product_data at h
  cases h1 : priceField (firstVariant p).price with
  | none => rw [h1] at h; exact absurd h (by simp)
  | some a =>
    cases h2 : priceField (firstVariant p).compare_at_price with
    | none => rw [h1, h2] at h; exact absurd h (by simp)
    | some b =>
      rw [h1, h2] at h
      cases h
      rfl

/-! ## Sync-loop lemmas -/

theorem syncLoop_success_count (clock : Nat → Nat) (recs : List RawProduct)
    (db : List Row) (s f c : Nat) :
    (syncLoop clock recs db s f c).2.1
      = s + recs.countP (fun p => (transform_product_data 0 p).isSome) := by
  induction recs generalizing db s f c with
  | nil => simp [syncLoop]
  | cons p tl ih =>
    rw [syncLoop]
    cases h : transform_product_data (clock c) p with
    | some row =>
      have hs : (transform_product_data 0 p).isSome = true := by
        rw [← transform_isSome_clock_indep (clock c)]; simp [h]
      rw [ih, List.countP_cons]
      simp [hs]
      omega
    | none =>
      have hs : (transform_product_data 0 p).isSome = false := by
        rw [← transform_isSome_clock_indep (clock c)]; simp [h]
      rw [ih, List.countP_cons]
      simp [hs]

theorem syncLoop_error_count (clock : Nat → Nat) (recs : List RawProduct)
    (db : List Row) (s f c : Nat) :
    (syncLoop clock recs db s f c).2.2.1
      = f + recs.countP (fun p => !(transform_product_data 0 p).isSome) := by
  induction recs generalizing db s f c with
  | nil => simp [syncLoop]
  | cons p tl ih =>
    rw [syncLoop]
    cases h : transform_product_data (clock c) p with
    | some row =>
      have hs : (transform_product_data 0 p).isSome = true := by
        rw [← transform_isSome_clock_indep (clock c)]; simp [h]
      rw [ih, List.countP_cons]
      simp [hs]
    | none =>
      have hs : (transform_product_data 0 p).isSome = false := by
        rw [← transform_isSome_clock_indep (clock c)]; simp [h]
      rw [ih, List.countP_cons]
      simp [hs]
      omega

theorem syncLoop_db_counts_indep (clock : Nat → Nat) (recs : List RawProduct)
    (db : List Row) (s f c s' f' : Nat) :
    (syncLoop clock recs db s f c).1 = (syncLoop clock recs db s' f' c).1 := by
  induction recs generalizing db s f s' f' c with
  | nil => rfl
  | cons p tl ih =>
    rw [syncLoop, syncLoop]
    cases transform_product_data (clock c) p with
    | some row => exact ih _ _ _ _ _ _
    | none => exact ih _ _ _ _ _ _

/-- Failed records leave no trace in the table: the view produced by the
loop equals the view produced by the loop over only the records whose
transform succeeds.  (A failed transform consumes no `utcnow()` tick, so
the surviving records see the same clock instants.) -/
theorem syncLoop_db_filter (clock : Nat → Nat) (recs : List RawProduct)
    (db : List Row) (s f c : Nat) :
    (syncLoop clock recs db s f c).1
      = (syncLoop clock
          (recs.filter (fun p => (transform_product_data 0 p).isSome)) db s f c).1 := by
  induction recs generalizing db s f c with
  | nil => rfl
  | cons p tl ih =>
    rw [syncLoop, List.filter_cons]
    cases h : transform_product_data (clock c) p with
    | some row =>
      have hs : (transform_product_data 0 p).isSome = true := by
        rw [← transform_isSome_clock_indep (clock c)]; simp [h]
      rw [if_pos hs, syncLoop, h]
      exact ih _ _ _ _
    | none =>
      have hs : ¬ ((transform_product_data 0 p).isSome = true) := by
        rw [← transform_isSome_clock_indep (clock c)]; simp [h]
      rw [if_neg hs, ih]
      exact syncLoop_db_counts_indep clock
        (tl.filter (fun p => (transform_product_data 0 p).isSome)) db s (f + 1) c s f

theorem syncLoop_core_sim (clock : Nat → Nat) (recs : List RawProduct)
    (db : List Row) (s f c : Nat) :
    ((syncLoop clock recs db s f c).1).map rowCore
      = upsertList RowCore.id (db.map rowCore) (coreWrites recs) := by
  induction recs generalizing db s f c with
  | nil => simp [syncLoop, coreWrites, upsertList_nil]
  | cons p tl ih =>
    rw [syncLoop]
    cases h : transform_product_data (clock c) p with
    | some row =>
      have hcore : (transform_product_data 0 p).map rowCore = some (rowCore row) := by
        rw [← transform_core_clock_indep (clock c)]; simp [h]
      rw [ih]
      unfold coreWrites
      rw [List.filterMap_cons]
      simp only [hcore]
      rw [map_upsert Row.id RowCore.id rowCore rowCore_id db row, upsertList_cons]
    | none =>
      have hcore : (transform_product_data 0 p).map rowCore = none := by
        rw [← transform_core_clock_indep (clock c)]; simp [h]
      have hnone : transform_product_data 0 p = none := by
        cases hx : transform_product_data 0 p
        · rfl
        · rw [hx] at hcore; simp at hcore
      rw [ih]
      unfold coreWrites
      rw [List.filterMap_cons]
      simp [hnone]

/-! ## Fetch-loop lemmas -/

theorem fetchLoop_spec {α : Type} (server : Nat → List α) :
    ∀ (k page fuel : Nat),
      (∀ i, page ≤ i → i < page + k → server i ≠ []) →
      server (page + k) = [] → k + 1 ≤ fuel →
      fetchLoop server fuel page
        = some ((((List.range k).map (fun i => server (page + i))).flatten), k + 1) := by
  intro k
  induction k with
  | zero =>
    intro page fuel _ h2 hf
    match fuel, hf with
    | fuel' + 1, _ =>
      rw [fetchLoop]
      have hp : server page = [] := by simpa using h2
      simp [hp]
  | succ k ih =>
    intro page fuel h1 h2 hf
    match fuel, hf with
    | fuel' + 1, hf =>
      rw [fetchLoop]
      have hne : server page ≠ [] := h1 page le_rfl (by omega)
      have hie : (server page).isEmpty = false := by
        cases hs : server page
        · exact absurd hs hne
        · rfl
      rw [hie]
      simp only [Bool.false_eq_true, if_false]
      rw [ih (page + 1) fuel' ?_ ?_ ?_]
      · have hrange : ((List.range (k + 1)).map (fun i => server (page + i))).flatten
            = server page ++ ((List.range k).map (fun i => server (page + 1 + i))).flatten := by
          rw [List.range_succ_eq_map]
          simp only [List.map_cons, List.flatten, List.map_map]
          have hfun : ((fun i => server (page + i)) ∘ Nat.succ)
              = fun i => server (page + 1 + i) := by
            funext i
            have : page + Nat.succ i = page + 1 + i := by omega
            simp [Function.comp, this]
          rw [hfun]
          simp
        rw [hrange]
      · intro i hi1 hi2
        exact h1 i (by omega) (by omega)
      · have : page + 1 + k = page + (k + 1) := by omega
        rw [this]
        exact h2
      · omega

theorem fetchLoop_no_empty_page_loops {α : Type} (server : Nat → List α)
    (h : ∀ i, 1 ≤ i → server i ≠ []) :
    ∀ (fuel page : Nat), 1 ≤ page → fetchLoop server fuel page = none := by
  intro fuel
  induction fuel with
  | zero => intro page _; rfl
  | succ fuel ih =>
    intro page hp
    rw [fetchLoop]
    have hie : (server page).isEmpty = false := by
      cases hs : server page
      · exact absurd hs (h page hp)
      · rfl
    rw [hie]
    simp only [Bool.false_eq_true, if_false]
    rw [ih (page + 1) (by omega)]

theorem fetchLoopExc_error {α : Type} (server : Nat → Except String (List α)) (e : String) :
    ∀ (k page fuel : Nat),
      (∀ i, page ≤ i → i < page + k → ∃ b, server i = .ok b ∧ b ≠ []) →
      server (page + k) = .error e → k + 1 ≤ fuel →
      fetchLoopExc server fuel page = some (.error e) := by
  intro k
  induction k with
  | zero =>
    intro page fuel _ h2 hf
    match fuel, hf with
    | fuel' + 1, _ =>
      rw [fetchLoopExc]
      have hp : server page = .error e := by simpa using h2
      rw [hp]
  | succ k ih =>
    intro page fuel h1 h2 hf
    match fuel, hf with
    | fuel' + 1, hf =>
      rw [fetchLoopExc]
      obtain ⟨b, hb, hbne⟩ := h1 page le_rfl (by omega)
      rw [hb]
      have hie : b.isEmpty = false := by
        cases b
        · exact absurd rfl hbne
        · rfl
      simp only [hie, Bool.false_eq_true, if_false]
      rw [ih (page + 1) fuel' ?_ ?_ ?_]
      · intro i hi1 hi2
        exact h1 i (by omega) (by omega)
      · have : page + 1 + k = page + (k + 1) := by omega
        rw [this]
        exact h2
      · omega

/-! ## `sync_products_to_db` helper lemmas -/

theorem sync_conn_eq (clock : Nat → Nat) (records : List RawProduct)
    (conn : Conn) (c0 : Nat) :
    (sync_products_to_db clock none records conn c0).conn
      = ⟨(syncLoop clock records conn.current 0 0 (c0 + 1)).1,
         (syncLoop clock records conn.current 0 0 (c0 + 1)).1⟩ := by
  unfold sync_products_to_db
  rcases h : syncLoop clock records conn.current 0 0 (c0 + 1) with ⟨db, s, f, c⟩
  simp

theorem sync_result_counts (clock : Nat → Nat) (records : List RawProduct)
    (conn : Conn) (c0 : Nat) :
    (sync_products_to_db clock none records conn c0).result
      = .ok (records.countP (fun p => (transform_product_data 0 p).isSome),
             records.countP (fun p => !(transform_product_data 0 p).isSome)) := by
  unfold sync_products_to_db
  rcases h : syncLoop clock records conn.current 0 0 (c0 + 1) with ⟨db, s, f, c⟩
  have hs := syncLoop_success_count clock records conn.current 0 0 (c0 + 1)
  have hf := syncLoop_error_count clock records conn.current 0 0 (c0 + 1)
  rw [h] at hs hf
  simp at hs hf
  simp [hs, hf]

theorem syncLoop_nodup (clock : Nat → Nat) (recs : List RawProduct)
    (db : List Row) (s f c : Nat) (h : NodupKeys Row.id db) :
    NodupKeys Row.id (syncLoop clock recs db s f c).1 := by
  induction recs generalizing db s f c with
  | nil => exact h
  | cons p tl ih =>
    rw [syncLoop]
    cases transform_product_data (clock c) p with
    | some row => exact ih _ _ _ _ (nodupKeys_upsert Row.id db row h)
    | none => exact ih _ _ _ _ h

theorem keysOf_map_rowCore (db : List Row) :
    keysOf RowCore.id (db.map rowCore) = keysOf Row.id db := by
  unfold keysOf
  rw [List.map_map]
  rfl

/-! ## Claim theorems -/

/-- C1: for every catalog presented as pages where page N+1 is the first
empty page, `get_all_products` returns exactly the concatenation of pages
1..N in page order, terminates after issuing exactly N+1 page requests —
and this for any fuel at least N+1, so the empty page is what stops it; and
conversely, against a server that never returns an empty page, no amount of
fuel makes the loop stop: receiving an empty page is the only termination
condition. -/
theorem get_all_products_pagination_spec :
    (∀ (α : Type) (server : Nat → List α) (N : Nat),
        (∀ i, 1 ≤ i → i ≤ N → server i ≠ []) → server (N + 1) = [] →
        ∀ fuel, N + 1 ≤ fuel →
          get_all_products server fuel
            = some (((List.range N).map (fun i => server (i + 1))).flatten, N + 1))
    ∧ (∀ (α : Type) (server : Nat → List α),
        (∀ i, 1 ≤ i → server i ≠ []) →
        ∀ fuel, get_all_products server fuel = none) := by
  constructor
  · intro α server N h1 h2 fuel hf
    unfold get_all_products
    rw [fetchLoop_spec server N 1 fuel ?_ ?_ ?_]
    · have : (fun i => server (1 + i)) = fun i => server (i + 1) := by
        funext i
        rw [Nat.add_comm]
      rw [this]
    · intro i hi1 hi2
      exact h1 i hi1 (by omega)
    · have : 1 + N = N + 1 := by omega
      rw [this]
      exact h2
    · omega
  · intro α server h fuel
    unfold get_all_products
    exact fetchLoop_no_empty_page_loops server h fuel 1 le_rfl

/-- Witness for C1 at the concrete two-page catalog, and for the
never-terminating half at a server all of whose pages are nonempty. -/
theorem get_all_products_pagination_spec_witness :
    (∀ i, 1 ≤ i → i ≤ 2 → twoPageServer i ≠ []) ∧ twoPageServer (2 + 1) = []
    ∧ get_all_products twoPageServer 5 = some ([10, 20, 30], 2 + 1)
    ∧ get_all_products (fun _ : Nat => [0]) 7 = none := by
  have h1 : ∀ i, 1 ≤ i → i ≤ 2 → twoPageServer i ≠ [] := by
    intro i hi1 hi2
    interval_cases i <;> simp [twoPageServer]
  have h2 : twoPageServer (2 + 1) = [] := rfl
  refine ⟨h1, h2, ?_, ?_⟩
  · rw [get_all_products_pagination_spec.1 Nat twoPageServer 2 h1 h2 5 (by omega)]
    rfl
  · exact get_all_products_pagination_spec.2 Nat (fun _ => [0])
      (fun i _ => by simp) 7

/-- C9: if any page request fails mid-pagination, `get_all_products` aborts
the whole fetch at once: the result is exactly the propagated error — no
partial product list survives and no retry happens. -/
theorem get_all_products_error_aborts :
    ∀ (α : Type) (server : Nat → Except String (List α)) (k : Nat) (e : String),
      1 ≤ k →
      (∀ i, 1 ≤ i → i < k → ∃ b, server i = .ok b ∧ b ≠ []) →
      server k = .error e →
      ∀ fuel, k ≤ fuel → getAllProductsExc server fuel = some (.error e) := by
  intro α server k e hk h1 h2 fuel hf
  obtain ⟨m, rfl⟩ : ∃ m, k = m + 1 := ⟨k - 1, by omega⟩
  unfold getAllProductsExc
  apply fetchLoopExc_error server e m 1 fuel
  · intro i hi1 hi2
    exact h1 i hi1 (by omega)
  · have : 1 + m = m + 1 := by omega
    rw [this]
    exact h2
  · omega

/-- Witness for C9: the failing server errors on page 2 after a nonempty
page 1; the whole fetch returns exactly that error. -/
theorem get_all_products_error_aborts_witness :
    1 ≤ 2 ∧ failingServer 2 = .error "network down"
    ∧ getAllProductsExc failingServer 6 = some (.error "network down") := by
  refine ⟨by omega, rfl, ?_⟩
  apply get_all_products_error_aborts Nat failingServer 2 "network down" (by omega) ?_ rfl 6 (by omega)
  intro i hi1 hi2
  interval_cases i
  exact ⟨[5], rfl, by simp⟩

/-- A successful transform's price columns are exactly the values of the two
guarded `float(...)` expressions. -/
theorem transform_price_eq (now : Nat) (p : RawProduct) (r : Row)
    (h : transform_product_data now p = some r) :
    priceField (firstVariant p).price = some r.price
    ∧ priceField (firstVariant p).compare_at_price = some r.compare_at_price := by
  unfold transform_product_data at h
  cases h1 : priceField (firstVariant p).price with
  | none => rw [h1] at h; exact absurd h (by simp)
  | some a =>
    cases h2 : priceField (firstVariant p).compare_at_price with
    | none => rw [h1, h2] at h; exact absurd h (by simp)
    | some b =>
      rw [h1, h2] at h
      cases h
      exact ⟨rfl, rfl⟩

/-- C2 counterexample: for the record whose first variant's price is the
string "0", `transform_product_data` yields the price 0.0, not null — the
nonempty string "0" is truthy in Python, so the guard takes the `float`
branch.  The claim asserts a null price for this input; the code returns
0.0. -/
theorem transform_price_string_zero_not_null :
    (transform_product_data 0 zeroStrPriceProduct).map Row.price
        = some (some ⟨0, 0⟩)
    ∧ (transform_product_data 0 zeroStrPriceProduct).map Row.price
        ≠ some none := by
  constructor
  · decide
  · decide

/-- C2 amended: an absent or Python-falsy source price (`None`, integer 0,
float 0.0, or the empty string) maps to a null price, and likewise for the
compare-at price; but the string "0" is truthy, so it is parsed and stored
as the number 0.0, not as null. -/
theorem transform_price_falsy_maps_to_null :
    ∀ (now : Nat) (p : RawProduct) (r : Row),
      transform_product_data now p = some r →
      (((firstVariant p).price = .pnone ∨ (firstVariant p).price = .pstr ""
          ∨ (firstVariant p).price = .pint 0
          ∨ (∃ d : PyDec, (firstVariant p).price = .pfloat d ∧ d.mant = 0))
        → r.price = none)
      ∧ ((firstVariant p).price = .pstr "0" → r.price = some ⟨0, 0⟩)
      ∧ (((firstVariant p).compare_at_price = .pnone
          ∨ (firstVariant p).compare_at_price = .pstr ""
          ∨ (firstVariant p).compare_at_price = .pint 0
          ∨ (∃ d : PyDec, (firstVariant p).compare_at_price = .pfloat d ∧ d.mant = 0))
        → r.compare_at_price = none)
      ∧ ((firstVariant p).compare_at_price = .pstr "0"
        → r.compare_at_price = some ⟨0, 0⟩) := by
  intro now p r h
  obtain ⟨hp, hc⟩ := transform_price_eq now p r h
  refine ⟨?_, ?_, ?_, ?_⟩
  · rintro (hx | hx | hx | ⟨d, hx, hd⟩) <;> rw [hx] at hp <;>
      [skip; skip; skip; rw [show d = ⟨0, d.frac10⟩ from by cases d; simp_all] at hp] <;>
      simp [priceField, pyTruthy] at hp <;> exact hp.symm
  · intro hx
    rw [hx] at hp
    have : (some (some ⟨0, 0⟩) : Option (Option PyDec)) = some r.price := hp
    simpa using this.symm
  · rintro (hx | hx | hx | ⟨d, hx, hd⟩) <;> rw [hx] at hc <;>
      [skip; skip; skip; rw [show d = ⟨0, d.frac10⟩ from by cases d; simp_all] at hc] <;>
      simp [priceField, pyTruthy] at hc <;> exact hc.symm
  · intro hx
    rw [hx] at hc
    have : (some (some ⟨0, 0⟩) : Option (Option PyDec)) = some r.compare_at_price := hc
    simpa using this.symm

/-- Witness for the amended C2: the integer-zero price maps to null, and the
string "0" price maps to 0.0, at concrete records. -/
theorem transform_price_falsy_maps_to_null_witness :
    (transform_product_data 3 intZeroPriceProduct).map Row.price = some none
    ∧ (transform_product_data 3 zeroStrPriceProduct).map Row.price
        = some (some ⟨0, 0⟩) := by
  constructor
  · cases htr : transform_product_data 3 intZeroPriceProduct with
    | none => exact absurd htr (by decide)
    | some r =>
      have hp := (transform_price_falsy_maps_to_null 3 intZeroPriceProduct r htr).1
        (Or.inr (Or.inr (Or.inl (by decide))))
      simp [hp]
  · cases htr : transform_product_data 3 zeroStrPriceProduct with
    | none => exact absurd htr (by decide)
    | some r =>
      have hp := (transform_price_falsy_maps_to_null 3 zeroStrPriceProduct r htr).2.1
        (by decide)
      simp [hp]

/-- C5: on a record with zero variants the transform succeeds and every
variant-derived column (price, compare-at price, SKU, inventory quantity)
is null; when both price fields of the first variant are absent the
transform cannot raise; and every absent top-level optional field comes out
as null in the row. -/
theorem transform_sparse_total :
    ∀ (now : Nat) (p : RawProduct),
      (p.variants = [] →
        ∃ r, transform_product_data now p = some r ∧ r.price = none
          ∧ r.compare_at_price = none ∧ r.sku = .pnone
          ∧ r.inventory_quantity = .pnone)
      ∧ ((firstVariant p).price = .pnone → (firstVariant p).compare_at_price = .pnone →
          (transform_product_data now p).isSome = true)
      ∧ (∀ r, transform_product_data now p = some r →
          (p.body_html = .pnone → r.description = .pnone)
          ∧ (p.title = .pnone → r.title = .pnone)
          ∧ (p.vendor = .pnone → r.vendor = .pnone)
          ∧ (p.product_type = .pnone → r.product_type = .pnone)
          ∧ (p.created_at = .pnone → r.created_at = .pnone)
          ∧ (p.updated_at = .pnone → r.updated_at = .pnone)
          ∧ (p.published_at = .pnone → r.published_at = .pnone)
          ∧ (p.status = .pnone → r.status = .pnone)) := by
  intro now p
  refine ⟨?_, ?_, ?_⟩
  · intro hv
    have hfv : firstVariant p = emptyVariant := by
      unfold firstVariant
      rw [hv]
    have ht : transform_product_data now p
        = some { id := p.id, title := p.title, description := p.body_html,
                 vendor := p.vendor, product_type := p.product_type,
                 created_at := p.created_at, updated_at := p.updated_at,
                 published_at := p.published_at, status := p.status,
                 price := none, compare_at_price := none, sku := .pnone,
                 inventory_quantity := .pnone, last_synced_at := now } := by
      unfold transform_product_data
      rw [hfv]
      rfl
    exact ⟨_, ht, rfl, rfl, rfl, rfl⟩
  · intro hp hc
    unfold transform_product_data
    rw [hp, hc]
    rfl
  · intro r h
    unfold transform_product_data at h
    cases h1 : priceField (firstVariant p).price with
    | none => rw [h1] at h; exact absurd h (by simp)
    | some a =>
      cases h2 : priceField (firstVariant p).compare_at_price with
      | none => rw [h1, h2] at h; exact absurd h (by simp)
      | some b =>
        rw [h1, h2] at h
        cases h
        exact ⟨fun hx => hx, fun hx => hx, fun hx => hx, fun hx => hx,
               fun hx => hx, fun hx => hx, fun hx => hx, fun hx => hx⟩

/-- Witness for C5 at the sparse zero-variant record. -/
theorem transform_sparse_total_witness :
    sparseProduct.variants = []
    ∧ (transform_product_data 7 sparseProduct).map Row.price = some none
    ∧ (transform_product_data 7 sparseProduct).map Row.sku = some .pnone
    ∧ (transform_product_data 7 sparseProduct).map Row.vendor = some .pnone := by
  obtain ⟨r, hr, hprice, hcap, hsku, hinv⟩ :=
    (transform_sparse_total 7 sparseProduct).1 rfl
  have hvendor := (((transform_sparse_total 7 sparseProduct).2.2 r hr).2.2.1) rfl
  refine ⟨rfl, ?_, ?_, ?_⟩ <;> rw [hr] <;> simp [hprice, hsku, hvendor]

/-- C3: with a committing batch, `sync_products_to_db` never raises: it
returns `.ok` with success_count the number of records whose transform
succeeds and failure_count the number whose transform raises, and the
resulting connection state is exactly what syncing only the succeeding
records produces — a failing record is counted and skipped, never aborting
the batch.  In particular, for the batch [good, bad, good] the run reports
success_count = 2, failure_count = 1 and writes rows 1 and 3. -/
theorem sync_partial_failure_isolated :
    (∀ (clock : Nat → Nat) (records : List RawProduct) (conn : Conn) (c0 : Nat),
      (sync_products_to_db clock none records conn c0).result
          = .ok (records.countP (fun p => (transform_product_data 0 p).isSome),
                 records.countP (fun p => !(transform_product_data 0 p).isSome))
      ∧ (sync_products_to_db clock none records conn c0).conn
          = (sync_products_to_db clock none
              (records.filter (fun p => (transform_product_data 0 p).isSome))
              conn c0).conn)
    ∧ (sync_products_to_db (fun n => n) none
        [sampleProduct 1, badProduct, sampleProduct 3] ⟨[], []⟩ 0).result
        = .ok (2, 1)
    ∧ ((sync_products_to_db (fun n => n) none
        [sampleProduct 1, badProduct, sampleProduct 3] ⟨[], []⟩ 0).conn.committed).map
          Row.id = [.pint 1, .pint 3] := by
  refine ⟨?_, ?_, ?_⟩
  · intro clock records conn c0
    refine ⟨sync_result_counts clock records conn c0, ?_⟩
    rw [sync_conn_eq, sync_conn_eq,
      syncLoop_db_filter clock records conn.current 0 0 (c0 + 1)]
  · rfl
  · rfl

/-- C6 (refuted, code bug): rows written in one batch do not share one
`last_synced_at`.  Each row keeps the `utcnow()` of its own transform call
(sync.py line 118), while the batch-level `current_time` captured once per
run (line 130) is never used; with a clock that advances between calls the
two rows of one batch get instants 1 and 2. -/
theorem sync_timestamp_not_uniform :
    ((sync_products_to_db (fun n => n) none [sampleProduct 1, sampleProduct 3]
        ⟨[], []⟩ 0).conn.committed).map Row.last_synced_at = [1, 2]
    ∧ (1 : Nat) ≠ 2 := by
  exact ⟨rfl, by omega⟩

/-- C8: if the batch-level commit fails, the run's writes are rolled back —
both the durable store and the connection's view equal the store as it was
before the call — and the commit error is propagated to the caller. -/
theorem sync_commit_failure_rolls_back :
    ∀ (clock : Nat → Nat) (e : String) (records : List RawProduct)
      (conn : Conn) (c0 : Nat),
      (sync_products_to_db clock (some e) records conn c0).conn.committed
          = conn.committed
      ∧ (sync_products_to_db clock (some e) records conn c0).conn.current
          = conn.committed
      ∧ (sync_products_to_db clock (some e) records conn c0).result = .error e := by
  intro clock e records conn c0
  unfold sync_products_to_db
  rcases h : syncLoop clock records conn.current 0 0 (c0 + 1) with ⟨db, s, f, c⟩
  exact ⟨rfl, rfl, rfl⟩

/-- C4: upserting is idempotent.  Starting from a store satisfying the
primary-key invariant, running the batch a second time (with any clock)
leaves every row identical except possibly `last_synced_at`, keeps one row
per product id, and reports the same counts as the first run. -/
theorem sync_idempotent :
    ∀ (clock1 clock2 : Nat → Nat) (records : List RawProduct) (conn0 : Conn)
      (c0 c1 : Nat),
      NodupKeys Row.id conn0.current →
      ((sync_products_to_db clock2 none records
          (sync_products_to_db clock1 none records conn0 c0).conn
          c1).conn.committed).map rowCore
        = ((sync_products_to_db clock1 none records conn0 c0).conn.committed).map
            rowCore
      ∧ NodupKeys Row.id
          (sync_products_to_db clock1 none records conn0 c0).conn.committed
      ∧ (sync_products_to_db clock2 none records
          (sync_products_to_db clock1 none records conn0 c0).conn c1).result
        = (sync_products_to_db clock1 none records conn0 c0).result := by
  intro clock1 clock2 records conn0 c0 c1 h
  have e1 := sync_conn_eq clock1 records conn0 c0
  have e2 := sync_conn_eq clock2 records
    (sync_products_to_db clock1 none records conn0 c0).conn c1
  have hD : NodupKeys RowCore.id (conn0.current.map rowCore) := by
    unfold NodupKeys
    rw [keysOf_map_rowCore]
    exact h
  refine ⟨?_, ?_, ?_⟩
  · rw [e2, e1]
    show ((syncLoop clock2 records
        (syncLoop clock1 records conn0.current 0 0 (c0 + 1)).1 0 0 (c1 + 1)).1).map
          rowCore
      = ((syncLoop clock1 records conn0.current 0 0 (c0 + 1)).1).map rowCore
    rw [syncLoop_core_sim clock2 records _ 0 0 (c1 + 1),
      syncLoop_core_sim clock1 records conn0.current 0 0 (c0 + 1)]
    exact upsertList_idem RowCore.id (conn0.current.map rowCore)
      (coreWrites records) hD
  · rw [e1]
    exact syncLoop_nodup clock1 records conn0.current 0 0 (c0 + 1) h
  · rw [sync_result_counts, sync_result_counts]

/-- Witness for C4: re-syncing the sample product over its own result
changes nothing but timestamps. -/
theorem sync_idempotent_witness :
    NodupKeys Row.id (Conn.mk [] []).current
    ∧ ((sync_products_to_db (fun n => n) none [sampleProduct 1]
          (sync_products_to_db (fun n => n) none [sampleProduct 1]
            ⟨[], []⟩ 0).conn 5).conn.committed).map rowCore
      = ((sync_products_to_db (fun n => n) none [sampleProduct 1]
            ⟨[], []⟩ 0).conn.committed).map rowCore := by
  have h : NodupKeys Row.id (Conn.mk [] []).current := List.nodup_nil
  exact ⟨h,
    (sync_idempotent (fun n => n) (fun n => n) [sampleProduct 1] ⟨[], []⟩ 0 5 h).1⟩

/-- C7: the store keeps at most one row per product id under every upsert.
Syncing a record and then a modified record with the same id leaves exactly
one row for that id, and that row holds all of the modified record's values
(modulo the timestamp column): the write is a whole-row replacement, never
a merge or a duplicate insert. -/
theorem upsert_one_row_per_id :
    ∀ (clock1 clock2 : Nat → Nat) (c0 c1 : Nat) (conn0 : Conn)
      (p q : RawProduct) (r r' : Row),
      NodupKeys Row.id conn0.current →
      transform_product_data 0 p = some r →
      transform_product_data 0 q = some r' →
      r.id = r'.id →
      ((sync_products_to_db clock2 none [q]
          (sync_products_to_db clock1 none [p] conn0 c0).conn
          c1).conn.committed).countP (fun row => row.id = r'.id) = 1
      ∧ (((sync_products_to_db clock2 none [q]
          (sync_products_to_db clock1 none [p] conn0 c0).conn
          c1).conn.committed).find? (fun row => row.id = r'.id)).map rowCore
        = some (rowCore r')
      ∧ NodupKeys Row.id (sync_products_to_db clock2 none [q]
          (sync_products_to_db clock1 none [p] conn0 c0).conn
          c1).conn.committed := by
  intro clock1 clock2 c0 c1 conn0 p q r r' hnd htp htq hid
  obtain ⟨row1, h1⟩ : ∃ row1, transform_product_data (clock1 (c0 + 1)) p = some row1 := by
    have hi := transform_isSome_clock_indep (clock1 (c0 + 1)) p
    rw [htp] at hi
    simp at hi
    exact Option.isSome_iff_exists.mp hi
  obtain ⟨row2, h2⟩ : ∃ row2, transform_product_data (clock2 (c1 + 1)) q = some row2 := by
    have hi := transform_isSome_clock_indep (clock2 (c1 + 1)) q
    rw [htq] at hi
    simp at hi
    exact Option.isSome_iff_exists.mp hi
  have hcore2 : rowCore row2 = rowCore r' := by
    have hc := transform_core_clock_indep (clock2 (c1 + 1)) q
    rw [h2, htq] at hc
    simpa using hc
  have hid2 : row2.id = r'.id := by
    rw [← rowCore_id row2, hcore2, rowCore_id]
  have e1 := sync_conn_eq clock1 [p] conn0 c0
  have e2 := sync_conn_eq clock2 [q]
    (sync_products_to_db clock1 none [p] conn0 c0).conn c1
  have l1 : (syncLoop clock1 [p] conn0.current 0 0 (c0 + 1)).1
      = upsert Row.id conn0.current row1 := by
    rw [syncLoop, h1]
    rfl
  have hfinal : (sync_products_to_db clock2 none [q]
      (sync_products_to_db clock1 none [p] conn0 c0).conn c1).conn.committed
      = upsert Row.id (upsert Row.id conn0.current row1) row2 := by
    rw [e2, e1]
    show (syncLoop clock2 [q]
        (syncLoop clock1 [p] conn0.current 0 0 (c0 + 1)).1 0 0 (c1 + 1)).1 = _
    rw [l1, syncLoop, h2]
    rfl
  have hnd2 : NodupKeys Row.id
      (upsert Row.id (upsert Row.id conn0.current row1) row2) :=
    nodupKeys_upsert Row.id _ row2 (nodupKeys_upsert Row.id conn0.current row1 hnd)
  have hmem : r'.id ∈ keysOf Row.id
      (upsert Row.id (upsert Row.id conn0.current row1) row2) :=
    (mem_keysOf_upsert Row.id _ row2 r'.id).mpr (Or.inr hid2.symm)
  refine ⟨?_, ?_, ?_⟩
  · rw [hfinal]
    exact countP_key_eq_one Row.id _ r'.id hnd2 hmem
  · rw [hfinal]
    show (lookupRow Row.id
        (upsert Row.id (upsert Row.id conn0.current row1) row2) r'.id).map rowCore
      = some (rowCore r')
    rw [lookupRow_upsert, if_pos hid2]
    simp [hcore2]
  · rw [hfinal]
    exact hnd2

/-- Witness for C7: upserting the sample product with id 1, then a renamed
record with the same id, leaves exactly one row for that id. -/
theorem upsert_one_row_per_id_witness :
    (transform_product_data 0 (sampleProduct 1)).isSome = true
    ∧ (transform_product_data 0 modifiedProduct).isSome = true
    ∧ ((sync_products_to_db (fun n => n) none [modifiedProduct]
        (sync_products_to_db (fun n => n) none [sampleProduct 1]
          ⟨[], []⟩ 0).conn 9).conn.committed).countP
          (fun row => row.id = PyScalar.pint 1) = 1 := by
  cases h1 : transform_product_data 0 (sampleProduct 1) with
  | none => exact absurd h1 (by decide)
  | some r =>
    cases h2 : transform_product_data 0 modifiedProduct with
    | none => exact absurd h2 (by decide)
    | some r' =>
      have hid : r.id = r'.id := by
        rw [transform_id 0 _ r h1, transform_id 0 _ r' h2]
        rfl
      have hr'id : r'.id = PyScalar.pint 1 := by
        rw [transform_id 0 _ r' h2]
        rfl
      have hmain := upsert_one_row_per_id (fun n => n) (fun n => n) 0 9 ⟨[], []⟩
        (sampleProduct 1) modifiedProduct r r' List.nodup_nil h1 h2 hid
      refine ⟨rfl, rfl, ?_⟩
      rw [← hr'id]
      exact hmain.1

/-- C10: whenever `trigger_sync` returns (its fetch loop terminates), the
outer handler has turned every outcome — missing credentials, a failing
`init_shopify` or `init_db`, a fetch error, a commit error, or success —
into a dict whose status is "success" or "error", never a propagated
exception; and the database connection was closed exactly when one had been
opened. -/
theorem trigger_sync_total :
    ∀ (env : TriggerEnv) (db0 : List Row) (fuel : Nat) (out : TriggerOutcome),
      trigger_sync env db0 fuel = some out →
      (out.status = "success" ∨ out.status = "error")
      ∧ out.connClosed = out.connOpened := by
  intro env db0 fuel out h
  unfold trigger_sync at h
  split at h
  · cases h
    exact ⟨Or.inr rfl, rfl⟩
  · split at h
    · cases h
      exact ⟨Or.inr rfl, rfl⟩
    · split at h
      · cases h
        exact ⟨Or.inr rfl, rfl⟩
      · split at h
        · exact Option.noConfusion h
        · cases h
          exact ⟨Or.inr rfl, rfl⟩
        · split at h
          · cases h
            exact ⟨Or.inr rfl, rfl⟩
          · cases h
            exact ⟨Or.inl rfl, rfl⟩

/-- Witness for C10: in the all-success environment over an empty catalog,
`trigger_sync` returns the success dict with the connection opened and
closed. -/
theorem trigger_sync_total_witness :
    trigger_sync okTriggerEnv [] 1 = some okTriggerOutcome
    ∧ (okTriggerOutcome.status = "success" ∨ okTriggerOutcome.status = "error")
    ∧ okTriggerOutcome.connClosed = okTriggerOutcome.connOpened := by
  have h : trigger_sync okTriggerEnv [] 1 = some okTriggerOutcome := rfl
  exact ⟨h, (trigger_sync_total okTriggerEnv [] 1 okTriggerOutcome h).1,
    (trigger_sync_total okTriggerEnv [] 1 okTriggerOutcome h).2⟩
